import Mathlib

/-!
Verification of the date-picker engine (`useDatePicker`, `useControllableState`,
`getMonthDays` and friends) against its natural-language specification.

Dates are modelled the way the JavaScript runtime stores them: a single
integer timestamp.  We use minutes since the Unix epoch (all code under
verification zeroes seconds and milliseconds, so minute granularity is
exact).  Civil calendar fields (`getFullYear`, `getMonth`, `getDate`) are
derived from the timestamp with the standard proleptic-Gregorian
conversion, months 0-based as in JavaScript.  On `Int`, `/` and `%` are
Euclidean division, which agrees with the floor division used by the
ECMAScript date algorithms whenever the divisor is positive (as it is in
every division below).
-/

/-- Minutes in one day. -/
def oneDay : Int := 1440

/-- Day number (days since the epoch) of a timestamp. -/
def dayOf (t : Int) : Int := t / 1440

/-- Minutes past local midnight. -/
def minsOf (t : Int) : Int := t % 1440

/-- JavaScript remainder operator `%` (truncated-division remainder). -/
def jsMod (a b : Int) : Int := Int.tmod a b

/-- Day number of a civil date, month 0-based as in JavaScript; month and
day-of-month overflow roll over exactly as in ECMAScript `MakeDay`.  Uses
the standard era-based Gregorian conversion. -/
def daysFromCivil (y m d : Int) : Int :=
  let y1 := y + m / 12
  let m1 := m % 12 + 1
  let y2 := if m1 ≤ 2 then y1 - 1 else y1
  let era := y2 / 400
  let yoe := y2 - era * 400
  let mp := (m1 + 9) % 12
  let doy := (153 * mp + 2) / 5 + d - 1
  let doe := yoe * 365 + yoe / 4 - yoe / 100 + doy
  era * 146097 + doe - 719468

/-- Civil date (year, 0-based month, day-of-month) of a day number. -/
def civilFromDays (z : Int) : Int × Int × Int :=
  let z1 := z + 719468
  let era := z1 / 146097
  let doe := z1 - era * 146097
  let yoe := (doe - doe / 1460 + doe / 36524 - doe / 146096) / 365
  let y := yoe + era * 400
  let doy := doe - (365 * yoe + yoe / 4 - yoe / 100)
  let mp := (5 * doy + 2) / 153
  let d := doy - (153 * mp + 2) / 5 + 1
  let m1 := if mp < 10 then mp + 3 else mp - 9
  (if m1 ≤ 2 then y + 1 else y, m1 - 1, d)

/-- Civil triple of a timestamp. -/
def civilOf (t : Int) : Int × Int × Int := civilFromDays (dayOf t)

/-- JavaScript `Date.prototype.getFullYear` (local time = UTC in this model). -/
def getFullYear (t : Int) : Int := (civilOf t).1

/-- JavaScript `Date.prototype.getMonth` (0-based). -/
def getMonth (t : Int) : Int := (civilOf t).2.1

/-- JavaScript `Date.prototype.getDate` (day of month, 1-based). -/
def getDate (t : Int) : Int := (civilOf t).2.2

/-- JavaScript `Date.prototype.getDay`: weekday, 0 = Sunday.  Day 0 of the
epoch (1970-01-01) was a Thursday (= 4). -/
def getDay (t : Int) : Int := (dayOf t + 4) % 7

/-- JavaScript `Date.prototype.getHours`. -/
def getHours (t : Int) : Int := minsOf t / 60

/-- JavaScript `Date.prototype.getMinutes`. -/
def getMinutes (t : Int) : Int := minsOf t % 60

/-- The timestamp of `new Date(y, m, d)` (midnight local time). -/
def mkDate (y m d : Int) : Int := daysFromCivil y m d * oneDay

/-- The effect of `date.setHours(h, min, 0, 0)` on a timestamp: keep the
calendar day, replace the time of day (with rollover for out-of-range
arguments, as in ECMAScript). -/
def setHoursMins (t : Int) (h min : Int) : Int :=
  dayOf t * oneDay + h * 60 + min

/-- The effect of `date.setMonth(m)`: rebuild the timestamp from the same
year and day-of-month with the new month, keeping the time of day. -/
def setMonth (t : Int) (m : Int) : Int :=
  daysFromCivil (getFullYear t) m (getDate t) * oneDay + minsOf t

/-- The effect of `date.setFullYear(y)`. -/
def setFullYear (t : Int) (y : Int) : Int :=
  daysFromCivil y (getMonth t) (getDate t) * oneDay + minsOf t

/-! Source helpers from `use-date-picker.tsx`. -/

/-- Source `normalizeDate` on a non-null date: `setHours(0, 0, 0, 0)`,
i.e. truncate to local midnight. -/
def normalizeDate (t : Int) : Int := dayOf t * oneDay

/-- Source `clampDate(date, min, max)`. -/
def clampDate (date : Int) (min? max? : Option Int) : Int :=
  let next := date
  let next := match min? with
    | some mn => if next < mn then mn else next
    | none => next
  match max? with
    | some mx => if next > mx then mx else next
    | none => next

/-- Source `areSameDay` on two non-null dates: equality of the civil
year/month/day triples. -/
def areSameDay (a b : Int) : Bool :=
  decide (getFullYear a = getFullYear b) &&
  decide (getMonth a = getMonth b) &&
  decide (getDate a = getDate b)

/-- Source `compareDay`: `yearDiff || monthDiff || dateDiff` — the first
non-zero of the civil component differences (JavaScript `||` on numbers). -/
def compareDay (a b : Int) : Int :=
  let yd := getFullYear a - getFullYear b
  if yd ≠ 0 then yd
  else
    let md := getMonth a - getMonth b
    if md ≠ 0 then md
    else getDate a - getDate b

/-- Source `addMonths`: `setMonth(getMonth() + amount)`. -/
def addMonths (t : Int) (amount : Int) : Int := setMonth t (getMonth t + amount)

-- sanity checks on the calendar kernel
example : civilFromDays 0 = (1970, 0, 1) := by decide
example : mkDate 1970 0 1 = 0 := by decide
example : getDay (mkDate 2024 2 15) = 5 := by decide
example : civilOf (mkDate 2024 2 15) = (2024, 2, 15) := by decide
example : addMonths (mkDate 2024 0 31) 1 = mkDate 2024 2 2 := by decide

/-! Basic lemmas about the date model. -/

theorem dayOf_normalizeDate (t : Int) : dayOf (normalizeDate t) = dayOf t := by
  unfold normalizeDate dayOf oneDay; omega

theorem civilOf_normalizeDate (t : Int) : civilOf (normalizeDate t) = civilOf t := by
  unfold civilOf; rw [dayOf_normalizeDate]

theorem getFullYear_normalizeDate (t : Int) : getFullYear (normalizeDate t) = getFullYear t := by
  unfold getFullYear; rw [civilOf_normalizeDate]

theorem getMonth_normalizeDate (t : Int) : getMonth (normalizeDate t) = getMonth t := by
  unfold getMonth; rw [civilOf_normalizeDate]

theorem getDate_normalizeDate (t : Int) : getDate (normalizeDate t) = getDate t := by
  unfold getDate; rw [civilOf_normalizeDate]

theorem compareDay_normalizeDate_left (a b : Int) :
    compareDay (normalizeDate a) b = compareDay a b := by
  unfold compareDay
  rw [getFullYear_normalizeDate, getMonth_normalizeDate, getDate_normalizeDate]

theorem compareDay_normalizeDate_right (a b : Int) :
    compareDay a (normalizeDate b) = compareDay a b := by
  unfold compareDay
  rw [getFullYear_normalizeDate, getMonth_normalizeDate, getDate_normalizeDate]

theorem compareDay_swap (a b : Int) : compareDay b a = -compareDay a b := by
  unfold compareDay
  dsimp only
  split_ifs <;> omega

theorem compareDay_self (a : Int) : compareDay a a = 0 := by
  unfold compareDay; simp

theorem jsMod_eq_emod (a b : Int) (ha : 0 ≤ a) (hb : 0 ≤ b) : jsMod a b = a % b :=
  Int.tmod_eq_emod ha hb

/-! The calendar grid generator (`getMonthDays`). -/

/-- One cell of the calendar grid, as produced by `getMonthDays`.  The
weekday label formatter is external (`Intl.DateTimeFormat`), so `label`
keeps the numeric `getDate` value the source stringifies. -/
structure CalendarDay where
  date : Int
  label : Int
  isToday : Bool
  isCurrentMonth : Bool
  isDisabled : Bool
deriving DecidableEq

/-- Builds one grid cell exactly as the inner loop of `getMonthDays` does,
given the already-normalized bounds. -/
def mkCalendarDay (viewDate today : Int) (nmin nmax : Option Int)
    (isDateUnavailable : Int → Bool) (current : Int) : CalendarDay :=
  let isCurrentMonth := decide (getMonth current = getMonth viewDate)
  let isToday := areSameDay current today
  let isBeforeMin := match nmin with
    | some mn => decide (current < mn)
    | none => false
  let isAfterMax := match nmax with
    | some mx => decide (current > mx)
    | none => false
  { date := current
    label := getDate current
    isToday := isToday
    isCurrentMonth := isCurrentMonth
    isDisabled := isBeforeMin || isAfterMax || isDateUnavailable current }

/-- The first grid cell: the first of the view month shifted back to the
configured week start (`setDate(firstOfMonth.getDate() - diff)`). -/
def startGridOf (viewDate : Int) (weekStartsOn : Int) : Int :=
  let firstOfMonth := mkDate (getFullYear viewDate) (getMonth viewDate) 1
  let startDay := getDay firstOfMonth
  let diff := jsMod (startDay - weekStartsOn + 7) 7
  firstOfMonth - diff * oneDay

/-- Source `getMonthDays`: the 6×7 grid of day cells plus the seven dates
fed to the weekday-label formatter.  `today` stands for `new Date()`;
`setDate(base.getDate() + k)` adds `k` days to the timestamp. -/
def getMonthDays (viewDate today : Int) (weekStartsOn : Int)
    (minDate maxDate : Option Int) (isDateUnavailable : Int → Bool) :
    List (List CalendarDay) × List Int :=
  let startGrid := startGridOf viewDate weekStartsOn
  let nmin := minDate.map normalizeDate
  let nmax := maxDate.map normalizeDate
  let weekDays := (List.range 7).map (fun i => mkDate 2023 0 (weekStartsOn + i + 1))
  let weeks := (List.range 6).map (fun (weekIndex : Nat) =>
    (List.range 7).map (fun (dayIndex : Nat) =>
      mkCalendarDay viewDate today nmin nmax isDateUnavailable
        (startGrid + ((weekIndex : Int) * 7 + (dayIndex : Int)) * oneDay)))
  (weeks, weekDays)

example :
    (((getMonthDays (mkDate 2024 2 15) 0 1 none none (fun _ => false)).1.head?.getD []).head?.map
      (fun c => c.date)) = some (mkDate 2024 1 26) := by decide

theorem getDay_startGridOf (viewDate : Int) (w : Int) (h0 : 0 ≤ w) (h7 : w < 7) :
    getDay (startGridOf viewDate w) = w := by
  unfold startGridOf
  dsimp only
  rw [jsMod_eq_emod _ _ (by unfold getDay; omega) (by omega)]
  unfold getDay dayOf mkDate oneDay
  omega

/-- Fallback cell used with `List.getD` when stating grid facts. -/
def blankCell : CalendarDay := ⟨0, 0, false, false, false⟩

/-- C1: for every view date, week-start offset in 0..6, bounds and
availability predicate, `getMonthDays` returns exactly 6 weeks of 7 cells
each; cell `(wi, di)` holds the day `7 * wi + di` days after the grid
start, so the 42 cells are consecutive calendar days with no gaps or
duplicates; and the first cell's weekday equals `weekStartsOn`. -/
theorem c1_grid_totality (viewDate today : Int) (w : Int)
    (minDate maxDate : Option Int) (unavail : Int → Bool)
    (h0 : 0 ≤ w) (h7 : w < 7) :
    (getMonthDays viewDate today w minDate maxDate unavail).1.length = 6 ∧
    (∀ wk ∈ (getMonthDays viewDate today w minDate maxDate unavail).1, wk.length = 7) ∧
    (∀ wi di : Nat, wi < 6 → di < 7 →
      ((((getMonthDays viewDate today w minDate maxDate unavail).1.getD wi []).getD di
          blankCell).date
        = startGridOf viewDate w + ((wi : Int) * 7 + (di : Int)) * oneDay)) ∧
    getDay (startGridOf viewDate w) = w := by
  refine ⟨by simp only [getMonthDays, List.length_map, List.length_range], ?_, ?_,
    getDay_startGridOf viewDate w h0 h7⟩
  · intro wk hwk
    simp only [getMonthDays, List.mem_map, List.mem_range] at hwk
    obtain ⟨i, _, rfl⟩ := hwk
    simp only [List.length_map, List.length_range]
  · intro wi di hwi hdi
    simp only [getMonthDays, List.getD, List.get?_map, List.get?_range hwi,
      List.get?_range hdi, Option.map_some', Option.getD_some, mkCalendarDay]

/-! The selection engine (`useDatePicker` state and `selectDate`). -/

/-- A `DatePickerValue`: `null`, a single `Date`, or a
`DateRangeValue { start, end }` with nullable fields. -/
inductive DPValue where
  | null : DPValue
  | single : Int → DPValue
  | range : Option Int → Option Int → DPValue
deriving DecidableEq

/-- A parsed `"HH:MM"` time string. -/
structure TimeHM where
  h : Int
  m : Int
deriving DecidableEq

/-- A time string coming from a real `<input type="time">`. -/
def TimeHM.wf (t : TimeHM) : Prop := 0 ≤ t.h ∧ t.h < 24 ∧ 0 ≤ t.m ∧ t.m < 60

instance (t : TimeHM) : Decidable t.wf :=
  inferInstanceAs (Decidable (_ ∧ _ ∧ _ ∧ _))

/-- The stored time is either absent or a well-formed `"HH:MM"` value. -/
def timeWf : Option TimeHM → Prop
  | none => True
  | some t => t.wf

/-- Construction-time configuration of `useDatePicker` (the props the
claims exercise). -/
structure Config where
  isRange : Bool
  closeOnSelect : Bool
  allowSameDateSelection : Bool
  enableTimeSelection : Bool
  minDate : Option Int
  maxDate : Option Int
deriving DecidableEq

/-- The engine's mutable state: selection value, time string, view date,
last highlighted day and the popover visibility (uncontrolled mode; the
claims under verification all concern engine-owned storage). -/
structure EngineState where
  value : DPValue
  time : Option TimeHM
  view : Int
  lastHighlighted : Int
  isOpen : Bool
deriving DecidableEq

/-- Source `ensureRangeOrder(range, allowSame)` on the two nullable
fields: when both ends are present and out of order, swap them. -/
def ensureRangeOrder (start stop : Option Int) (allowSame : Bool) :
    Option Int × Option Int :=
  match start, stop with
  | some s, some e =>
    let c := compareDay s e
    if c = 0 ∧ allowSame = true then (some s, some e)
    else if c ≤ 0 then (some s, some e)
    else (some e, some s)
  | s, e => (s, e)

/-- Applies the stored time to a freshly selected date, as the
`if (enableTimeSelection && time) date.setHours(hours, minutes, 0, 0)`
blocks of `selectDate` do. -/
def applyStoredTime (enable : Bool) (time : Option TimeHM) (d : Int) : Int :=
  if enable then
    match time with
    | some t => setHoursMins d t.h t.m
    | none => d
  else d

/-- The clamped, midnight-normalized day `selectDate` computes first:
`normalizeDate(clampDate(day, normalizeDate(minDate), normalizeDate(maxDate)))`. -/
def normClamp (cfg : Config) (day : Int) : Int :=
  normalizeDate (clampDate day (cfg.minDate.map normalizeDate) (cfg.maxDate.map normalizeDate))

/-- Source `selectDate`, as a state transition.  Mirrors the branch
structure: in range mode a restart happens when there is no current range
or the current range is complete; a range with no start is restarted
without time compositing; otherwise the pick completes the range through
`ensureRangeOrder`, closes when `closeOnSelect`, and the stored time is
applied to the ordered range's end (the source mutates `ordered.end`
after storing it). -/
def selectDate (cfg : Config) (s : EngineState) (day : Int) : EngineState :=
  let date := normClamp cfg day
  let s1 := { s with lastHighlighted := date }
  if cfg.isRange then
    match s.value with
    | .range none _ =>
      { s1 with value := .range (some date) none }
    | .range (some st) none =>
      let ordered := ensureRangeOrder (some st) (some date) cfg.allowSameDateSelection
      { s1 with
        value := .range ordered.1
          (ordered.2.map (applyStoredTime cfg.enableTimeSelection s.time))
        isOpen := if cfg.closeOnSelect then false else s1.isOpen }
    | _ =>
      { s1 with value := .range (some (applyStoredTime cfg.enableTimeSelection s.time date)) none }
  else
    { s1 with
      value := .single (applyStoredTime cfg.enableTimeSelection s.time date)
      isOpen := if cfg.closeOnSelect then false else s1.isOpen }

/-- Source `isInRange(day)` as a function of the mode flag and the
current value: false unless the value is a complete range containing the
normalized day inclusively. -/
def isInRange (isRangeFlag : Bool) (value : DPValue) (day : Int) : Bool :=
  let date := normalizeDate day
  match value, isRangeFlag with
  | .range (some st) (some en), true =>
    decide (compareDay st date ≤ 0) && decide (compareDay date en ≤ 0)
  | _, _ => false

/-- Source `clear()`. -/
def clearSelection (cfg : Config) (s : EngineState) : EngineState :=
  if cfg.isRange then { s with value := .range none none }
  else { s with value := .null }

/-! Helper lemmas for the range-ordering claims. -/

theorem dayOf_setHoursMins (t h m : Int) (h0 : 0 ≤ h * 60 + m) (h1 : h * 60 + m < 1440) :
    dayOf (setHoursMins t h m) = dayOf t := by
  unfold dayOf setHoursMins oneDay dayOf
  omega

theorem dayOf_applyStoredTime (enable : Bool) (time : Option TimeHM) (d : Int)
    (hwf : timeWf time) : dayOf (applyStoredTime enable time d) = dayOf d := by
  unfold applyStoredTime
  split_ifs with he
  · cases time with
    | none => rfl
    | some t =>
      obtain ⟨h1, h2, h3, h4⟩ := hwf
      exact dayOf_setHoursMins d t.h t.m (by omega) (by omega)
  · rfl

theorem compareDay_congr_right (a b b' : Int) (h : dayOf b = dayOf b') :
    compareDay a b = compareDay a b' := by
  unfold compareDay getFullYear getMonth getDate civilOf
  rw [h]

theorem selectDate_time (cfg : Config) (s : EngineState) (day : Int) :
    (selectDate cfg s day).time = s.time := by
  unfold selectDate
  dsimp only
  split
  · split <;> rfl
  · rfl

theorem ensureRangeOrder_ordered (st en : Int) (allow : Bool) :
    ∃ a b, ensureRangeOrder (some st) (some en) allow = (some a, some b) ∧
      compareDay a b ≤ 0 := by
  unfold ensureRangeOrder
  dsimp only
  split_ifs with h1 h2
  · exact ⟨st, en, rfl, by omega⟩
  · exact ⟨st, en, rfl, h2⟩
  · refine ⟨en, st, rfl, ?_⟩
    rw [compareDay_swap]
    omega

/-- C2: in range mode, for every pair of day-distinct picks made from an
empty selection, the stored range after both picks is complete and
chronologically ordered (`start <= end` by the engine's day-granularity
comparison), regardless of pick order. -/
theorem c2_range_order (cfg : Config) (s : EngineState) (d1 d2 : Int)
    (hR : cfg.isRange = true)
    (hempty : s.value = .range none none ∨ s.value = .null)
    (hwf : timeWf s.time)
    (hne : compareDay d1 d2 ≠ 0) :
    ∃ a b, (selectDate cfg (selectDate cfg s d1) d2).value = .range (some a) (some b) ∧
      compareDay a b ≤ 0 := by
  have hstep : ∃ st, (selectDate cfg s d1).value = .range (some st) none := by
    rcases hempty with h | h
    · exact ⟨normClamp cfg d1, by simp [selectDate, hR, h]⟩
    · exact ⟨applyStoredTime cfg.enableTimeSelection s.time (normClamp cfg d1),
        by simp [selectDate, hR, h]⟩
  obtain ⟨st, hst⟩ := hstep
  obtain ⟨a, b, hab, hle⟩ :=
    ensureRangeOrder_ordered st (normClamp cfg d2) cfg.allowSameDateSelection
  have htime := selectDate_time cfg s d1
  refine ⟨a, applyStoredTime cfg.enableTimeSelection s.time b, ?_, ?_⟩
  · generalize hgen : selectDate cfg s d1 = s1 at hst htime ⊢
    simp [selectDate, hR, hst, htime, hab]
  · rw [compareDay_congr_right a _ b
      (dayOf_applyStoredTime cfg.enableTimeSelection s.time b hwf)]
    exact hle

/-- C2 witness: a concrete run (picks 2024-04-02 then 2024-03-30 in range
mode) satisfying the hypotheses and the ordered-range conclusion. -/
theorem c2_range_order_witness :
    let cfg : Config := ⟨true, true, true, false, none, none⟩
    let s : EngineState := ⟨.null, none, 0, 0, true⟩
    compareDay (mkDate 2024 3 2) (mkDate 2024 2 30) ≠ 0 ∧
    ∃ a b,
      (selectDate cfg (selectDate cfg s (mkDate 2024 3 2)) (mkDate 2024 2 30)).value =
        .range (some a) (some b) ∧ compareDay a b ≤ 0 :=
  ⟨by decide, c2_range_order _ _ _ _ rfl (Or.inr rfl) trivial (by decide)⟩

/-- C3: evaluation of the code at the claim's failing input.  With
`allowSameDateSelection = false`, picking 2024-03-15 twice from an empty
range-mode selection stores the complete single-day range, not a
restarted start-only selection: `ensureRangeOrder`'s `allowSame`
parameter has no effect, because both of its `compare === 0` outcomes
return the range unchanged. -/
theorem c3_same_day_disallowed_still_completes :
    let cfg : Config := ⟨true, true, false, false, none, none⟩
    let s : EngineState := ⟨.null, none, 0, 0, true⟩
    let d := mkDate 2024 2 15
    (selectDate cfg (selectDate cfg s d) d).value = .range (some d) (some d) ∧
    (selectDate cfg (selectDate cfg s d) d).value ≠ .range (some d) none := by
  constructor
  · decide
  · decide

/-- One step of `selectDate` in single mode just stores the clamped,
normalized, time-composited day. -/
theorem selectDate_single_value (cfg : Config) (s : EngineState) (day : Int)
    (hR : cfg.isRange = false) :
    (selectDate cfg s day).value =
      .single (applyStoredTime cfg.enableTimeSelection s.time (normClamp cfg day)) := by
  simp [selectDate, hR]

/-- C4: with sane bounds, an out-of-bounds pick stores the same selection
as picking the nearest bound, an in-bounds pick stores the day itself
midnight-normalized, and no pick is ever rejected (a single date is
always stored). -/
theorem c4_clamping (cfg : Config) (s : EngineState) (day mn mx : Int)
    (hR : cfg.isRange = false) (hT : cfg.enableTimeSelection = false)
    (hmin : cfg.minDate = some mn) (hmax : cfg.maxDate = some mx)
    (hsane : mn ≤ mx) :
    (day < mn → (selectDate cfg s day).value = (selectDate cfg s mn).value) ∧
    (day > mx → (selectDate cfg s day).value = (selectDate cfg s mx).value) ∧
    (mn ≤ day → day ≤ mx → (selectDate cfg s day).value = .single (normalizeDate day)) ∧
    (∃ d, (selectDate cfg s day).value = .single d) := by
  have hval : ∀ d : Int, (selectDate cfg s d).value = .single (normClamp cfg d) := by
    intro d
    rw [selectDate_single_value cfg s d hR]
    simp [applyStoredTime, hT]
  have hnc : ∀ d : Int, normClamp cfg d =
      normalizeDate (clampDate d (some (normalizeDate mn)) (some (normalizeDate mx))) := by
    intro d
    simp [normClamp, hmin, hmax]
  refine ⟨?_, ?_, ?_, ⟨normClamp cfg day, hval day⟩⟩
  · intro hlt
    rw [hval day, hval mn, DPValue.single.injEq, hnc day, hnc mn]
    unfold clampDate normalizeDate dayOf oneDay
    dsimp only
    split_ifs <;> omega
  · intro hgt
    rw [hval day, hval mx, DPValue.single.injEq, hnc day, hnc mx]
    unfold clampDate normalizeDate dayOf oneDay
    dsimp only
    split_ifs <;> omega
  · intro hge hle
    rw [hval day, DPValue.single.injEq, hnc day]
    unfold clampDate normalizeDate dayOf oneDay
    dsimp only
    split_ifs <;> omega

/-- C4 witness: bounds 2024-03-10 .. 2024-03-20 and the out-of-bounds
pick 2024-03-01, which stores the same value as picking the lower bound. -/
theorem c4_clamping_witness :
    let mn := mkDate 2024 2 10
    let mx := mkDate 2024 2 20
    let cfg : Config := ⟨false, true, true, false, some mn, some mx⟩
    let s : EngineState := ⟨.null, none, 0, 0, true⟩
    mn ≤ mx ∧
    ((mkDate 2024 2 1 < mn →
        (selectDate cfg s (mkDate 2024 2 1)).value = (selectDate cfg s mn).value) ∧
      (mkDate 2024 2 1 > mx →
        (selectDate cfg s (mkDate 2024 2 1)).value = (selectDate cfg s mx).value) ∧
      (mn ≤ mkDate 2024 2 1 → mkDate 2024 2 1 ≤ mx →
        (selectDate cfg s (mkDate 2024 2 1)).value = .single (normalizeDate (mkDate 2024 2 1))) ∧
      (∃ d, (selectDate cfg s (mkDate 2024 2 1)).value = .single d)) :=
  ⟨by decide, c4_clamping _ _ _ _ _ rfl rfl rfl rfl (by decide)⟩

/-- C5: `isInRange(day)` is true exactly when the engine is in range mode
with a complete stored range containing the day inclusively, under the
engine's own day-granularity comparison; and after picking 2024-03-30 then
2024-04-02 in range mode the stored range is exactly that pair, with
2024-03-31 inside it and 2024-03-29 outside it. -/
theorem c5_isInRange_characterization (f : Bool) (v : DPValue) (day : Int) :
    (isInRange f v day = true ↔
      f = true ∧ ∃ st en, v = .range (some st) (some en) ∧
        compareDay st day ≤ 0 ∧ compareDay day en ≤ 0) ∧
    (let cfg : Config := ⟨true, true, true, false, none, none⟩
     let s : EngineState := ⟨.null, none, 0, 0, true⟩
     let s2 := selectDate cfg (selectDate cfg s (mkDate 2024 2 30)) (mkDate 2024 3 2)
     s2.value = .range (some (mkDate 2024 2 30)) (some (mkDate 2024 3 2)) ∧
     isInRange true s2.value (mkDate 2024 2 31) = true ∧
     isInRange true s2.value (mkDate 2024 2 29) = false) := by
  constructor
  · unfold isInRange
    dsimp only
    cases v with
    | null => cases f <;> simp
    | single d => cases f <;> simp
    | range st en =>
      cases f with
      | false => simp
      | true =>
        cases st with
        | none => simp
        | some a =>
          cases en with
          | none => simp
          | some b =>
            simp only [compareDay_normalizeDate_left, compareDay_normalizeDate_right,
              Bool.and_eq_true, decide_eq_true_eq, DPValue.range.injEq, Option.some.injEq,
              true_and]
            constructor
            · rintro ⟨h1, h2⟩
              exact ⟨a, b, ⟨rfl, rfl⟩, h1, h2⟩
            · rintro ⟨st, en, ⟨rfl, rfl⟩, h1, h2⟩
              exact ⟨h1, h2⟩
  · exact ⟨by decide, by decide, by decide⟩

/-! The navigation and focus controller (`handleKeyDown`, `gotoMonth`,
`gotoYear` and the view resync effect). -/

/-- The keyboard keys `handleKeyDown` recognizes.  `enter` and `space`
trigger `selectDate` on the focused day instead of moving focus, and any
other key falls through, so neither produces a movement target. -/
inductive Key where
  | arrowRight | arrowLeft | arrowDown | arrowUp
  | pageDown | pageUp | home | endKey
  | enter | space | other
deriving DecidableEq

/-- The movement target `next` computed by `handleKeyDown`'s `switch` for
a given key (with the shift modifier state).  `setDate(getDate() ± k)`
adds or subtracts `k` days from the timestamp. -/
def keyNext (weekStartsOn : Int) (key : Key) (shift : Bool) (day : Int) : Option Int :=
  match key with
  | .arrowRight => some (day + oneDay)
  | .arrowLeft => some (day - oneDay)
  | .arrowDown => some (day + 7 * oneDay)
  | .arrowUp => some (day - 7 * oneDay)
  | .pageDown => some (if shift then addMonths day (-12) else addMonths day 1)
  | .pageUp => some (if shift then addMonths day 12 else addMonths day (-1))
  | .home => some (day - jsMod (getDay day - weekStartsOn + 7) 7 * oneDay)
  | .endKey => some (day + (6 - jsMod (getDay day - weekStartsOn + 7) 7) * oneDay)
  | _ => none

/-- The navigation-relevant slice of the engine state. -/
structure NavState where
  view : Int
  lastHighlighted : Int
  focusedRef : Int
deriving DecidableEq

/-- The tail of `handleKeyDown` after a movement target is computed:
`setLastHighlighted(normalizeDate(next))`, the conditional
`setView` follow (view changes only when the candidate's month or year
differs), and the focused-date ref update. -/
def moveFocus (ns : NavState) (next : Int) : NavState :=
  let candidate := normalizeDate next
  { view :=
      if getMonth candidate ≠ getMonth ns.view ∨ getFullYear candidate ≠ getFullYear ns.view
      then normalizeDate candidate else ns.view
    lastHighlighted := normalizeDate next
    focusedRef := normalizeDate next }

/-- Source `handleKeyDown` restricted to its focus-movement effect
(`enter`/`space` dispatch `selectDate` and are modelled with the
selection engine instead). -/
def handleKeyDown (weekStartsOn : Int) (key : Key) (shift : Bool) (day : Int)
    (ns : NavState) : NavState :=
  match keyNext weekStartsOn key shift day with
  | none => ns
  | some next => moveFocus ns next

theorem moveFocus_view_follows (ns : NavState) (next : Int) :
    getMonth (moveFocus ns next).view = getMonth (moveFocus ns next).lastHighlighted ∧
    getFullYear (moveFocus ns next).view = getFullYear (moveFocus ns next).lastHighlighted := by
  unfold moveFocus
  dsimp only
  split_ifs with h
  · exact ⟨getMonth_normalizeDate _, getFullYear_normalizeDate _⟩
  · push_neg at h
    exact ⟨h.1.symm, h.2.symm⟩

/-- C6 (amended): `ArrowRight`/`ArrowLeft` move the focused day by ±1 day
and `ArrowDown`/`ArrowUp` by ±7 days; `PageDown`/`PageUp` move forward or
backward one month, but with Shift held `PageDown` moves *backward* 12
months and `PageUp` *forward* 12 months (the opposite of the claim's
pairing); and every movement key updates the focused date to the
normalized target and leaves the view on the focused date's month and
year. -/
theorem c6_keyboard_traversal (weekStartsOn : Int) (shift : Bool) (day : Int) (ns : NavState) :
    keyNext weekStartsOn .arrowRight shift day = some (day + oneDay) ∧
    keyNext weekStartsOn .arrowLeft shift day = some (day - oneDay) ∧
    keyNext weekStartsOn .arrowDown shift day = some (day + 7 * oneDay) ∧
    keyNext weekStartsOn .arrowUp shift day = some (day - 7 * oneDay) ∧
    keyNext weekStartsOn .pageDown false day = some (addMonths day 1) ∧
    keyNext weekStartsOn .pageUp false day = some (addMonths day (-1)) ∧
    keyNext weekStartsOn .pageDown true day = some (addMonths day (-12)) ∧
    keyNext weekStartsOn .pageUp true day = some (addMonths day 12) ∧
    (∀ (key : Key) (next : Int), keyNext weekStartsOn key shift day = some next →
      (handleKeyDown weekStartsOn key shift day ns).lastHighlighted = normalizeDate next ∧
      getMonth (handleKeyDown weekStartsOn key shift day ns).view
        = getMonth (handleKeyDown weekStartsOn key shift day ns).lastHighlighted ∧
      getFullYear (handleKeyDown weekStartsOn key shift day ns).view
        = getFullYear (handleKeyDown weekStartsOn key shift day ns).lastHighlighted) := by
  refine ⟨rfl, rfl, rfl, rfl, rfl, rfl, rfl, rfl, ?_⟩
  intro key next h
  unfold handleKeyDown
  rw [h]
  exact ⟨rfl, (moveFocus_view_follows ns next).1, (moveFocus_view_follows ns next).2⟩

/-- C6 counterexample: at 2024-03-15, `PageDown` with Shift held moves
backward 12 months (to 2023-03-15), not forward 12 months as claimed. -/
theorem c6_counterexample :
    keyNext 0 .pageDown true (mkDate 2024 2 15) ≠ some (addMonths (mkDate 2024 2 15) 12) ∧
    keyNext 0 .pageDown true (mkDate 2024 2 15) = some (mkDate 2023 2 15) := by
  exact ⟨by decide, by decide⟩

/-- C6 witness: the movement-key conclusion applied to `ArrowRight` at a
concrete day, discharging the `keyNext … = some next` premise. -/
theorem c6_keyboard_traversal_witness :
    let ns : NavState := ⟨mkDate 2024 2 1, mkDate 2024 2 31, mkDate 2024 2 31⟩
    keyNext 0 .arrowRight false (mkDate 2024 2 31) = some (mkDate 2024 2 31 + oneDay) ∧
    ((handleKeyDown 0 .arrowRight false (mkDate 2024 2 31) ns).lastHighlighted
        = normalizeDate (mkDate 2024 2 31 + oneDay) ∧
      getMonth (handleKeyDown 0 .arrowRight false (mkDate 2024 2 31) ns).view
        = getMonth (handleKeyDown 0 .arrowRight false (mkDate 2024 2 31) ns).lastHighlighted ∧
      getFullYear (handleKeyDown 0 .arrowRight false (mkDate 2024 2 31) ns).view
        = getFullYear (handleKeyDown 0 .arrowRight false (mkDate 2024 2 31) ns).lastHighlighted) :=
  ⟨by decide,
    (c6_keyboard_traversal 0 false (mkDate 2024 2 31) _).2.2.2.2.2.2.2.2
      .arrowRight (mkDate 2024 2 31 + oneDay) (by decide)⟩

/-- Source `getInitialViewDate(value, fallback)`: the single value, else
the range's start, else `fallback ?? new Date()` (`now` stands for
`new Date()`). -/
def getInitialViewDate (value : DPValue) (fallback : Option Int) (now : Int) : Int :=
  match value with
  | .single d => d
  | .range (some st) _ => st
  | _ => fallback.getD now

/-- The initial view state: `useState(() => normalizeDate(initialView))`
(the `?? new Date()` fallback is dead, since `normalizeDate` of a non-null
date is non-null). -/
def initView (value : DPValue) (fallback : Option Int) (now : Int) : Int :=
  normalizeDate (getInitialViewDate value fallback now)

/-- Source `gotoPreviousMonth`: `setView(prev => addMonths(prev, -1))`. -/
def gotoPreviousMonth (view : Int) : Int := addMonths view (-1)

/-- Source `gotoNextMonth`. -/
def gotoNextMonth (view : Int) : Int := addMonths view 1

/-- Source `gotoMonth(month)`: `new Date(prev).setMonth(month)`. -/
def gotoMonth (view : Int) (month : Int) : Int := setMonth view month

/-- Source `gotoYear(year)`. -/
def gotoYear (view : Int) (year : Int) : Int := setFullYear view year

/-- The reactive `useEffect([value])` resync of the view: when the value
is non-null, the view becomes the normalized anchor (`end ?? start` for a
range, the date itself for a single value); otherwise it is untouched. -/
def resyncView (value : DPValue) (view : Int) : Int :=
  match value with
  | .null => view
  | .single d => normalizeDate d
  | .range st en =>
    match (match en with | some e => some e | none => st) with
    | some a => normalizeDate a
    | none => view

theorem normalizeDate_midnight (t : Int) : normalizeDate t % 1440 = 0 := by
  unfold normalizeDate dayOf oneDay; omega

/-- C7 counterexample: initializing the engine with the selection
2024-03-15 produces a view date whose day-of-month is 15, so the view is
not normalized to day 1 of its month. -/
theorem c7_counterexample :
    getDate (initView (.single (mkDate 2024 2 15)) none 0) = 15 ∧
    getDate (initView (.single (mkDate 2024 2 15)) none 0) ≠ 1 := by
  exact ⟨by decide, by decide⟩

/-- C7 (amended): the view date is always normalized to midnight (its
time of day is zeroed) — this holds at initialization and is preserved by
the reactive resync, by `gotoPreviousMonth`/`gotoNextMonth` (and any
`addMonths`), by `gotoMonth` and `gotoYear`, and by keyboard traversal —
but it is not normalized to day 1 of the month. -/
theorem c7_amended_view_midnight (value : DPValue) (fb : Option Int)
    (now v m y k day weekStartsOn : Int) (ns : NavState) (key : Key) (shift : Bool) :
    initView value fb now % 1440 = 0 ∧
    (v % 1440 = 0 → addMonths v k % 1440 = 0) ∧
    (v % 1440 = 0 → gotoPreviousMonth v % 1440 = 0) ∧
    (v % 1440 = 0 → gotoNextMonth v % 1440 = 0) ∧
    (v % 1440 = 0 → gotoMonth v m % 1440 = 0) ∧
    (v % 1440 = 0 → gotoYear v y % 1440 = 0) ∧
    (v % 1440 = 0 → resyncView value v % 1440 = 0) ∧
    (ns.view % 1440 = 0 → (handleKeyDown weekStartsOn key shift day ns).view % 1440 = 0) := by
  have hadd : ∀ (t a : Int), t % 1440 = 0 → addMonths t a % 1440 = 0 := by
    intro t a h
    unfold addMonths setMonth minsOf oneDay
    omega
  refine ⟨normalizeDate_midnight _, hadd v k, hadd v (-1), hadd v 1, ?_, ?_, ?_, ?_⟩
  · intro h
    unfold gotoMonth setMonth minsOf oneDay
    omega
  · intro h
    unfold gotoYear setFullYear minsOf oneDay
    omega
  · intro h
    unfold resyncView
    cases value with
    | null => exact h
    | single d => exact normalizeDate_midnight d
    | range st en =>
      cases en with
      | some e => exact normalizeDate_midnight e
      | none =>
        cases st with
        | some a => exact normalizeDate_midnight a
        | none => exact h
  · intro h
    unfold handleKeyDown
    cases hk : keyNext weekStartsOn key shift day with
    | none => exact h
    | some next =>
      unfold moveFocus
      dsimp only
      split_ifs with hc
      · exact normalizeDate_midnight _
      · exact h

/-- C7 witness: the amended invariant at a concrete state (view =
2024-03-15 midnight, month navigation and resync applied). -/
theorem c7_amended_view_midnight_witness :
    mkDate 2024 2 15 % 1440 = 0 ∧
    (initView (.single (mkDate 2024 0 1)) none 0 % 1440 = 0 ∧
      addMonths (mkDate 2024 2 15) 5 % 1440 = 0 ∧
      gotoPreviousMonth (mkDate 2024 2 15) % 1440 = 0 ∧
      gotoNextMonth (mkDate 2024 2 15) % 1440 = 0 ∧
      gotoMonth (mkDate 2024 2 15) 0 % 1440 = 0 ∧
      gotoYear (mkDate 2024 2 15) 2030 % 1440 = 0 ∧
      resyncView (.single (mkDate 2024 0 1)) (mkDate 2024 2 15) % 1440 = 0 ∧
      (handleKeyDown 0 .arrowRight false (mkDate 2024 2 15)
          ⟨mkDate 2024 2 15, mkDate 2024 2 15, mkDate 2024 2 15⟩).view % 1440 = 0) := by
  have h := c7_amended_view_midnight (.single (mkDate 2024 0 1)) none 0 (mkDate 2024 2 15)
    0 2030 5 (mkDate 2024 2 15) 0
    ⟨mkDate 2024 2 15, mkDate 2024 2 15, mkDate 2024 2 15⟩ .arrowRight false
  have hm : mkDate 2024 2 15 % 1440 = 0 := by decide
  exact ⟨hm, h.1, h.2.1 hm, h.2.2.1 hm, h.2.2.2.1 hm, h.2.2.2.2.1 hm,
    h.2.2.2.2.2.1 hm, h.2.2.2.2.2.2.1 hm, h.2.2.2.2.2.2.2 hm⟩

/-! The disclosure coordinator: closing routes. -/

/-- The `close` action: the disclosure's `onClose`, which only flips the
open flag (no other engine state is involved). -/
def closePopover (s : EngineState) : EngineState := { s with isOpen := false }

/-- The `Escape` keydown listener: attached only while open; closes the
popover (the focus return to the trigger is a DOM effect outside the
engine state). -/
def escapeKeydown (s : EngineState) : EngineState :=
  if s.isOpen then closePopover s else s

/-- The `useOutsideClick` pointerdown listener: enabled only while open;
returns early when the target is inside the content node or inside the
trigger, and otherwise calls `close()`. -/
def outsidePointerDown (insideContent insideTrigger : Bool) (s : EngineState) : EngineState :=
  if s.isOpen = false then s
  else if insideContent then s
  else if insideTrigger then s
  else closePopover s

/-- C8: closing by any route — the close action, the escape listener, or
an outside pointerdown — leaves the selection and the time of day
unchanged; and in the concrete scenario (open popover, selection
2024-01-01, pointerdown outside content and trigger) the popover ends
closed with the selection intact. -/
theorem c8_close_preserves_selection (s : EngineState) (insideContent insideTrigger : Bool) :
    ((closePopover s).value = s.value ∧ (closePopover s).time = s.time) ∧
    ((escapeKeydown s).value = s.value ∧ (escapeKeydown s).time = s.time) ∧
    ((outsidePointerDown insideContent insideTrigger s).value = s.value ∧
      (outsidePointerDown insideContent insideTrigger s).time = s.time) ∧
    (let s0 : EngineState := ⟨.single (mkDate 2024 0 1), none, mkDate 2024 0 1,
        mkDate 2024 0 1, true⟩
     (outsidePointerDown false false s0).isOpen = false ∧
     (outsidePointerDown false false s0).value = .single (mkDate 2024 0 1) ∧
     (outsidePointerDown false false s0).time = none) := by
  refine ⟨⟨rfl, rfl⟩, ?_, ?_, by decide, by decide, by decide⟩
  · unfold escapeKeydown closePopover
    split_ifs <;> exact ⟨rfl, rfl⟩
  · unfold outsidePointerDown closePopover
    split_ifs <;> exact ⟨rfl, rfl⟩

/-! The controllable value store (`useControllableState`). -/

/-- The state kept by `useControllableState`: the `useState` storage and
the `valueRef` snapshot of the last rendered value. -/
structure ControllableState (T : Type) where
  internal : T
  valueRef : T

/-- The `currentValue` exposed by the store: the controlled value when
one is supplied, else the internal storage. -/
def currentValue {T : Type} (controlled : Option T) (s : ControllableState T) : T :=
  controlled.getD s.internal

/-- Source `setValue` of `useControllableState`: in uncontrolled mode it
writes the internal storage and the ref; in controlled mode it touches
neither; in both modes it emits the change callback exactly when the
proposed value differs (`Object.is`) from the previous ref snapshot.
Returns the new store state and the emitted callback payload. -/
def setControllableValue {T : Type} [DecidableEq T] (controlled : Option T)
    (s : ControllableState T) (next : T) : ControllableState T × Option T :=
  let previous := s.valueRef
  let s' := if controlled.isSome then s else { internal := next, valueRef := next }
  (s', if previous = next then none else some next)

/-- The `useEffect` that resyncs `valueRef` to the rendered value. -/
def syncValueRef {T : Type} (controlled : Option T) (s : ControllableState T) :
    ControllableState T :=
  { s with valueRef := currentValue controlled s }

/-- C9: with a controlled value supplied, `currentValue` mirrors it and
`setValue` leaves the internal storage untouched; and in both modes the
change callback fires exactly when the proposed next value differs from
the previous ref snapshot (and never when it is equal). -/
theorem c9_controllable_state {T : Type} [DecidableEq T] (c : T)
    (s : ControllableState T) (next : T) (ctl : Option T) :
    (setControllableValue (some c) s next).1 = s ∧
    currentValue (some c) (setControllableValue (some c) s next).1 = c ∧
    ((setControllableValue ctl s next).2 = some next ↔ next ≠ s.valueRef) ∧
    ((setControllableValue ctl s next).2 = none ↔ next = s.valueRef) := by
  refine ⟨rfl, rfl, ?_, ?_⟩ <;>
    · unfold setControllableValue
      dsimp only
      by_cases h : s.valueRef = next
      · rw [if_pos h]
        simp [h]
      · rw [if_neg h]
        simp only [Option.some.injEq, reduceCtorEq]
        constructor <;> intro hx
        all_goals first
          | exact fun hh => h hh.symm
          | exact absurd hx.symm h
          | rfl
          | trivial

/-- C9 witness: the store at `T = Int` with controlled value 5, ref
snapshot 1 and proposed value 2 (differs, so the callback fires). -/
theorem c9_controllable_state_witness :
    (setControllableValue (some (5 : Int)) ⟨1, 1⟩ 2).1 = ⟨1, 1⟩ ∧
    currentValue (some (5 : Int)) (setControllableValue (some 5) ⟨1, 1⟩ 2).1 = 5 ∧
    ((setControllableValue (some (5 : Int)) ⟨1, 1⟩ 2).2 = some 2 ↔
      (2 : Int) ≠ (⟨1, 1⟩ : ControllableState Int).valueRef) ∧
    ((setControllableValue (some (5 : Int)) ⟨1, 1⟩ 2).2 = none ↔
      (2 : Int) = (⟨1, 1⟩ : ControllableState Int).valueRef) :=
  c9_controllable_state 5 ⟨1, 1⟩ 2 (some 5)

/-! The time input (`getTimeInputProps().onChange`). -/

/-- Source `getTimeInputProps` change handler: store the new time string,
then — for a range-mode range value — copy `start`, let `end` default to
that copy when null, apply the new hour/minute to both (they may be the
same object), and store the pair; for a single date, apply the new
hour/minute to a copy; when the value is null, only the time is stored. -/
def timeInputChange (cfg : Config) (s : EngineState) (next : TimeHM) : EngineState :=
  let s1 := { s with time := some next }
  match s.value with
  | .null => s1
  | .range st en =>
    if cfg.isRange then
      let start := st
      let stop := match en with | some e => some e | none => start
      { s1 with
        value := .range (start.map (fun d => setHoursMins d next.h next.m))
          (stop.map (fun d => setHoursMins d next.h next.m)) }
    else s1
  | .single d =>
    { s1 with value := .single (setHoursMins d next.h next.m) }

/-- C10: in range mode with an open range (start set, end null), a time
change emits a completed range whose end is a copy of start carrying the
new hour and minute, and whose start carries the same new hour and
minute. -/
theorem c10_time_completes_open_range (cfg : Config) (s : EngineState) (st : Int)
    (next : TimeHM) (hR : cfg.isRange = true) (hv : s.value = .range (some st) none)
    (hwf : next.wf) :
    (timeInputChange cfg s next).value =
      .range (some (setHoursMins st next.h next.m)) (some (setHoursMins st next.h next.m)) ∧
    (timeInputChange cfg s next).time = some next ∧
    getHours (setHoursMins st next.h next.m) = next.h ∧
    getMinutes (setHoursMins st next.h next.m) = next.m := by
  obtain ⟨h1, h2, h3, h4⟩ := hwf
  refine ⟨?_, ?_, ?_, ?_⟩
  · simp [timeInputChange, hv, hR]
  · simp [timeInputChange, hv, hR]
  · unfold getHours minsOf setHoursMins dayOf oneDay
    omega
  · unfold getMinutes minsOf setHoursMins dayOf oneDay
    omega

/-- C10 witness: an open range starting 2024-03-30 and the time 14:30;
the emitted value is the completed single-object range at 14:30. -/
theorem c10_time_completes_open_range_witness :
    let cfg : Config := ⟨true, true, true, true, none, none⟩
    let s : EngineState := ⟨.range (some (mkDate 2024 2 30)) none, none, 0, 0, true⟩
    TimeHM.wf ⟨14, 30⟩ ∧
    ((timeInputChange cfg s ⟨14, 30⟩).value =
        .range (some (setHoursMins (mkDate 2024 2 30) 14 30))
          (some (setHoursMins (mkDate 2024 2 30) 14 30)) ∧
      (timeInputChange cfg s ⟨14, 30⟩).time = some ⟨14, 30⟩ ∧
      getHours (setHoursMins (mkDate 2024 2 30) 14 30) = 14 ∧
      getMinutes (setHoursMins (mkDate 2024 2 30) 14 30) = 30) :=
  ⟨by decide, c10_time_completes_open_range _ _ _ _ rfl rfl (by decide)⟩

/-- C1 witness: the March 2024 grid with `weekStartsOn = 1` (Monday),
no bounds and no unavailability predicate. -/
theorem c1_grid_totality_witness :
    ((0 : Int) ≤ 1 ∧ (1 : Int) < 7) ∧
    ((getMonthDays (mkDate 2024 2 15) 0 1 none none (fun _ => false)).1.length = 6 ∧
      (∀ wk ∈ (getMonthDays (mkDate 2024 2 15) 0 1 none none (fun _ => false)).1,
        wk.length = 7) ∧
      (∀ wi di : Nat, wi < 6 → di < 7 →
        ((((getMonthDays (mkDate 2024 2 15) 0 1 none none (fun _ => false)).1.getD wi []).getD
            di blankCell).date
          = startGridOf (mkDate 2024 2 15) 1 + ((wi : Int) * 7 + (di : Int)) * oneDay)) ∧
      getDay (startGridOf (mkDate 2024 2 15) 1) = 1) :=
  ⟨⟨by decide, by decide⟩,
    c1_grid_totality (mkDate 2024 2 15) 0 1 none none (fun _ => false) (by decide) (by decide)⟩
